import Mathlib

/-!
Verification development for the cache coordination engine of the repository:
the task/lease registry, heartbeat-based liveness, the persistence contract and
the unified local/remote client protocol.  The engine itself is modelled from
the specification (its tests live in `src/libs/cache/src/tests/persistent.rs`);
test fixtures such as `tuple_sum` are translated directly from that test file.
-/

/-- Serialized byte strings (each entry is one byte, `< 256` in well-formed data). -/
abbrev Bytes := List Nat

/-- Little-endian byte decomposition of a natural number into `n` bytes. -/
def leBytes : Nat → Nat → Bytes
  | 0, _ => []
  | n + 1, v => v % 256 :: leBytes n (v / 256)

/-- Serialization of a `u64` value: 8 little-endian bytes (bincode-style fixed width). -/
def encodeU64 (v : Nat) : Bytes := leBytes 8 v

/-- Deserialization of a little-endian byte string back into a natural number. -/
def decodeU64 (b : Bytes) : Nat := b.foldr (fun byte acc => acc * 256 + byte) 0

theorem decodeU64_cons (a : Nat) (l : Bytes) :
    decodeU64 (a :: l) = decodeU64 l * 256 + a := rfl

theorem decodeU64_leBytes (n v : Nat) : decodeU64 (leBytes n v) = v % 256 ^ n := by
  induction n generalizing v with
  | zero => simp [leBytes, decodeU64, Nat.mod_one]
  | succ n ih =>
    rw [leBytes, decodeU64_cons, ih, pow_succ, mul_comm (256 ^ n) 256, Nat.mod_mul]
    ring

/-- Serialize-then-deserialize is the identity on values that fit in a `u64`. -/
theorem decodeU64_encodeU64 (v : Nat) (hv : v < 2 ^ 64) :
    decodeU64 (encodeU64 v) = v := by
  have h : (256 : Nat) ^ 8 = 2 ^ 64 := by norm_num
  rw [encodeU64, decodeU64_leBytes, h, Nat.mod_eq_of_lt hv]

/-- Serialization of the `(u64, u64)` test key used throughout the persistent-cache tests. -/
def encodePair (p : Nat × Nat) : Bytes := encodeU64 p.1 ++ encodeU64 p.2

/-- From `src/libs/cache/src/tests/persistent.rs`: `tuple_sum`, on the byte
representation of its `(u64, u64)` argument (u64 arithmetic wraps mod `2 ^ 64`). -/
def tuple_sum (b : Bytes) : Nat :=
  (decodeU64 (b.take 8) + decodeU64 (b.drop 8)) % 2 ^ 64

/-- From `src/libs/cache/src/tests/persistent.rs`: `tuple_multiply`, on the byte
representation of its `(u64, u64)` argument (u64 arithmetic wraps mod `2 ^ 64`). -/
def tuple_multiply (b : Bytes) : Nat :=
  (decodeU64 (b.take 8) * decodeU64 (b.drop 8)) % 2 ^ 64

/-- A cache slot: the pair (namespace, serialized key representation) (spec section 3). -/
structure Slot where
  ns : String
  keyRepr : Bytes
deriving DecidableEq, Repr

/-- The two client front-ends of `persistent::client::ClientKind`: local (in-process)
and remote (networked).  Both dispatch into the same registry (spec section 4.4). -/
inductive ClientKind where
  | local
  | remote
deriving DecidableEq, Repr

/-- Modelled from the spec: the server's state.  `store` is the durable map from
slots to serialized values (the set of Done slots); `tasks` is the ephemeral task
registry holding, per leased slot, the owner id and the last accepted heartbeat
time; `nextLeaseId` generates fresh opaque owner ids (spec sections 3, 4.1, 4.3). -/
structure ServerState where
  heartbeatTimeout : Nat
  store : List (Slot × Bytes)
  tasks : List (Slot × Nat × Nat)
  nextLeaseId : Nat
deriving DecidableEq, Repr

/-- Lookup of a slot's durable record in the store. -/
def storeLookup : List (Slot × Bytes) → Slot → Option Bytes
  | [], _ => none
  | (s, v) :: rest, slot => if s = slot then some v else storeLookup rest slot

/-- Lookup of a slot's task record (owner id, last heartbeat time) in the registry. -/
def taskLookup : List (Slot × Nat × Nat) → Slot → Option (Nat × Nat)
  | [], _ => none
  | (s, p) :: rest, slot => if s = slot then some p else taskLookup rest slot

/-- Removal of all task records for a slot (the release transition back to Unclaimed). -/
def taskRemove (ts : List (Slot × Nat × Nat)) (slot : Slot) : List (Slot × Nat × Nat) :=
  ts.filter (fun e => e.1 ≠ slot)

/-- Renewal of the heartbeat timestamp of the lease `(slot, leaseId)`. -/
def taskHeartbeat : List (Slot × Nat × Nat) → Slot → Nat → Nat → List (Slot × Nat × Nat)
  | [], _, _, _ => []
  | (s, o, last) :: rest, slot, leaseId, now =>
    if s = slot ∧ o = leaseId then (s, o, now) :: rest
    else (s, o, last) :: taskHeartbeat rest slot leaseId now

/-- Modelled from the spec: the registry's answer to a claim request — exactly one of
AlreadyDone(value), Granted(lease) or Join(lease) (spec section 4.1, step 2). -/
inductive ClaimResponse where
  | alreadyDone (value : Bytes)
  | granted (leaseId : Nat)
  | join (leaseId : Nat)
deriving DecidableEq, Repr

/-- Modelled from the spec: the claim protocol (spec section 4.1).  A Done slot
answers AlreadyDone with the stored value; a leased slot answers Join; otherwise
the caller is Granted a fresh lease and the registry records the assignment with
the grant time as the initial heartbeat timestamp. -/
def claim (st : ServerState) (slot : Slot) (now : Nat) : ClaimResponse × ServerState :=
  match storeLookup st.store slot with
  | some v => (.alreadyDone v, st)
  | none =>
    match taskLookup st.tasks slot with
    | some (owner, _) => (.join owner, st)
    | none =>
      (.granted st.nextLeaseId,
        { st with
          tasks := (slot, st.nextLeaseId, now) :: st.tasks,
          nextLeaseId := st.nextLeaseId + 1 })

/-- Modelled from the spec: both ingress front-ends dispatch into the one shared
registry/store instance, so a claim is handled identically whether it arrives on
the local or the remote path (spec section 4.4). -/
def dispatchClaim (_kind : ClientKind) (st : ServerState) (slot : Slot) (now : Nat) :
    ClaimResponse × ServerState :=
  claim st slot now

/-- Modelled from the spec: successful completion — the owner uploads the serialized
result, the registry transitions the slot to Done, persists it, and the lease is
released.  The durable entry is terminal: it is never overwritten once present
(spec sections 3 and 4.1, step 4). -/
def complete (st : ServerState) (slot : Slot) (leaseId : Nat) (vb : Bytes) : ServerState :=
  match taskLookup st.tasks slot with
  | some (owner, _) =>
    if owner = leaseId then
      { st with
        tasks := taskRemove st.tasks slot,
        store :=
          match storeLookup st.store slot with
          | some _ => st.store
          | none => (slot, vb) :: st.store }
    else st
  | none => st

/-- Modelled from the spec: explicit failure report on lease release — the registry
immediately frees the slot back to Unclaimed; nothing is persisted (spec
section 4.1, step 5). -/
def failRelease (st : ServerState) (slot : Slot) (leaseId : Nat) : ServerState :=
  match taskLookup st.tasks slot with
  | some (owner, _) =>
    if owner = leaseId then { st with tasks := taskRemove st.tasks slot } else st
  | none => st

/-- Modelled from the spec: a heartbeat renews the lease's last-accepted timestamp
(spec section 4.2). -/
def heartbeat (st : ServerState) (slot : Slot) (leaseId : Nat) (now : Nat) : ServerState :=
  { st with tasks := taskHeartbeat st.tasks slot leaseId now }

/-- Modelled from the spec: the heartbeat monitor's expiry sweep — a lease is expired
when `now - last_heartbeat > heartbeat_timeout`, and expiry frees the slot exactly
like a failure release (spec section 4.2). -/
def sweepExpired (st : ServerState) (now : Nat) : ServerState :=
  { st with tasks := st.tasks.filter (fun e => now - e.2.2 ≤ st.heartbeatTimeout) }

/-- Modelled from the spec: a freshly started server — empty registry, empty durable
store (spec section 4.4). -/
def initServer (timeout : Nat) : ServerState :=
  { heartbeatTimeout := timeout, store := [], tasks := [], nextLeaseId := 0 }

/-- Modelled from the spec: server restart against the same root.  The set of Done
slots is reconstructed from durable records; no Assigned or failed state survives,
so every non-Done slot starts Unclaimed (spec section 4.3). -/
def restartServer (st : ServerState) : ServerState :=
  { st with tasks := [], nextLeaseId := 0 }

/-- Value a waiter or late caller resolves to: a Done answer carries its own stored
bytes; a joiner is woken with the owner's uploaded bytes (spec section 4.1, step 4).
The granted case does not arise for a caller resolved this way while the slot is
leased or done. -/
def resolveResponse (completedBytes : Bytes) (resp : ClaimResponse) : Nat :=
  match resp with
  | .alreadyDone b => decodeU64 b
  | .join _ => decodeU64 completedBytes
  | .granted _ => decodeU64 completedBytes

/-- Sequential processing of a batch of claim requests by the registry (the registry
serializes transitions per slot, spec section 5). -/
def processRequests (st : ServerState) (slot : Slot) (kinds : List ClientKind) (now : Nat) :
    List ClaimResponse × ServerState :=
  match kinds with
  | [] => ([], st)
  | k :: rest =>
    let p := dispatchClaim k st slot now
    let q := processRequests p.2 slot rest now
    (p.1 :: q.1, q.2)

/-- Outcome of a batch of concurrent generate calls for one slot: the values the
cache handles resolve to, the number of generator executions, and the final
server state. -/
structure RunResult where
  values : List Nat
  execCount : Nat
  final : ServerState
deriving DecidableEq, Repr

/-- Modelled from the spec: a batch of concurrent `generate` calls against one slot,
in any mix of local/remote modes.  The registry serializes the slot's transitions,
so every schedule is: a first request, further requests before the owner's
completion (`kindsJoin`), the completion, then the rest (`kindsAfter`).  A Granted
owner executes the generator exactly once on its own process and uploads the
serialized result; joiners are woken with that value; later callers get the stored
value (spec sections 4.1 and 5). -/
def runConcurrentGenerate (st : ServerState) (slot : Slot) (gen : Bytes → Nat)
    (kFirst : ClientKind) (kindsJoin kindsAfter : List ClientKind) (now : Nat) : RunResult :=
  let p0 := dispatchClaim kFirst st slot now
  match p0.1 with
  | .granted leaseId =>
    let pJ := processRequests p0.2 slot kindsJoin now
    let v := gen slot.keyRepr
    let vb := encodeU64 v
    let st3 := complete pJ.2 slot leaseId vb
    let pA := processRequests st3 slot kindsAfter now
    { values := v :: (pJ.1.map (resolveResponse vb) ++ pA.1.map (resolveResponse vb)),
      execCount := 1,
      final := pA.2 }
  | .alreadyDone vb =>
    let pJ := processRequests p0.2 slot kindsJoin now
    let pA := processRequests pJ.2 slot kindsAfter now
    { values := decodeU64 vb :: (pJ.1.map (resolveResponse vb) ++ pA.1.map (resolveResponse vb)),
      execCount := 0,
      final := pA.2 }
  | .join _ =>
    { values := [], execCount := 0, final := p0.2 }

theorem claim_fresh (st : ServerState) (slot : Slot) (now : Nat)
    (h1 : storeLookup st.store slot = none) (h2 : taskLookup st.tasks slot = none) :
    claim st slot now =
      (.granted st.nextLeaseId,
        { st with
          tasks := (slot, st.nextLeaseId, now) :: st.tasks,
          nextLeaseId := st.nextLeaseId + 1 }) := by
  simp [claim, h1, h2]

theorem claim_leased (st : ServerState) (slot : Slot) (now : Nat) (o lt : Nat)
    (h1 : storeLookup st.store slot = none) (h2 : taskLookup st.tasks slot = some (o, lt)) :
    claim st slot now = (.join o, st) := by
  simp [claim, h1, h2]

theorem claim_done (st : ServerState) (slot : Slot) (now : Nat) (v : Bytes)
    (h1 : storeLookup st.store slot = some v) :
    claim st slot now = (.alreadyDone v, st) := by
  simp [claim, h1]

theorem taskLookup_cons_self (slot : Slot) (p : Nat × Nat) (ts : List (Slot × Nat × Nat)) :
    taskLookup ((slot, p) :: ts) slot = some p := by
  simp [taskLookup]

theorem storeLookup_cons_self (slot : Slot) (v : Bytes) (es : List (Slot × Bytes)) :
    storeLookup ((slot, v) :: es) slot = some v := by
  simp [storeLookup]

theorem taskLookup_taskRemove_self (ts : List (Slot × Nat × Nat)) (slot : Slot) :
    taskLookup (taskRemove ts slot) slot = none := by
  induction ts with
  | nil => simp [taskRemove, taskLookup]
  | cons e rest ih =>
    by_cases h : e.1 = slot
    · simpa [taskRemove, List.filter, h] using ih
    · simpa [taskRemove, List.filter, h, taskLookup] using ih

theorem processRequests_leased (slot : Slot) (now : Nat) (o lt : Nat)
    (kinds : List ClientKind) :
    ∀ st : ServerState, storeLookup st.store slot = none →
      taskLookup st.tasks slot = some (o, lt) →
      processRequests st slot kinds now = (kinds.map (fun _ => .join o), st) := by
  induction kinds with
  | nil => intro st _ _; simp [processRequests]
  | cons k rest ih =>
    intro st h1 h2
    simp [processRequests, dispatchClaim, claim_leased st slot now o lt h1 h2, ih st h1 h2]

theorem processRequests_done (slot : Slot) (now : Nat) (v : Bytes)
    (kinds : List ClientKind) :
    ∀ st : ServerState, storeLookup st.store slot = some v →
      processRequests st slot kinds now = (kinds.map (fun _ => .alreadyDone v), st) := by
  induction kinds with
  | nil => intro st _; simp [processRequests]
  | cons k rest ih =>
    intro st h1
    simp [processRequests, dispatchClaim, claim_done st slot now v h1, ih st h1]

/-- Typed errors surfaced through a cache handle (spec section 7): `fault` is the
generator terminating abnormally (`Error::Panic` in the tests); `invalidInput` is a
key-intrinsic generator rejecting its key. -/
inductive CacheError where
  | fault
  | invalidInput (msg : String)
deriving DecidableEq, Repr

/-- Resolution state of a cache handle: a value, a typed error, or still waiting on
another owner's lease (a joiner that has not been woken yet). -/
inductive HandleResult where
  | ok (v : Nat)
  | err (e : CacheError)
  | pending
deriving DecidableEq, Repr

/-- Modelled from the spec: one `generate` call run to resolution on a server whose
slot is not currently leased by someone else.  A fallible generator returns `none`
when it terminates abnormally; in that case the owner's lease-release path reports
failure to the registry before the fault is surfaced to the caller (spec
section 4.1, steps 3-5).  The middle component counts successful generator
executions, as the tests' shared counter does. -/
def runGenerateOnce (st : ServerState) (slot : Slot) (gen : Bytes → Option Nat) (now : Nat) :
    HandleResult × Nat × ServerState :=
  let p := claim st slot now
  match p.1 with
  | .alreadyDone vb => (.ok (decodeU64 vb), 0, p.2)
  | .granted leaseId =>
    match gen slot.keyRepr with
    | some v => (.ok v, 1, complete p.2 slot leaseId (encodeU64 v))
    | none => (.err .fault, 0, failRelease p.2 slot leaseId)
  | .join _ => (.pending, 0, p.2)

/-- C1: for every batch of N >= 1 concurrent generate calls, in any mix of local and
remote client modes, against the same fresh slot, the generator executes exactly
once and all N cache handles resolve to the identical value — the generator applied
to the key. -/
theorem concurrent_generate_executes_once
    (st : ServerState) (slot : Slot) (gen : Bytes → Nat)
    (kFirst : ClientKind) (kindsJoin kindsAfter : List ClientKind) (now : Nat)
    (h1 : storeLookup st.store slot = none)
    (h2 : taskLookup st.tasks slot = none)
    (hv : gen slot.keyRepr < 2 ^ 64) :
    (runConcurrentGenerate st slot gen kFirst kindsJoin kindsAfter now).execCount = 1 ∧
    (runConcurrentGenerate st slot gen kFirst kindsJoin kindsAfter now).values.length
      = 1 + kindsJoin.length + kindsAfter.length ∧
    ∀ v ∈ (runConcurrentGenerate st slot gen kFirst kindsJoin kindsAfter now).values,
      v = gen slot.keyRepr := by
  have hclaim := claim_fresh st slot now h1 h2
  have h2' : taskLookup
      ({ st with
          tasks := (slot, st.nextLeaseId, now) :: st.tasks,
          nextLeaseId := st.nextLeaseId + 1 } : ServerState).tasks slot
      = some (st.nextLeaseId, now) := taskLookup_cons_self slot _ _
  have hpr := processRequests_leased slot now st.nextLeaseId now kindsJoin
    { st with
        tasks := (slot, st.nextLeaseId, now) :: st.tasks,
        nextLeaseId := st.nextLeaseId + 1 } h1 h2'
  have hcomp : complete
      ({ st with
          tasks := (slot, st.nextLeaseId, now) :: st.tasks,
          nextLeaseId := st.nextLeaseId + 1 } : ServerState)
      slot st.nextLeaseId (encodeU64 (gen slot.keyRepr))
      = { st with
          tasks := taskRemove ((slot, st.nextLeaseId, now) :: st.tasks) slot,
          store := (slot, encodeU64 (gen slot.keyRepr)) :: st.store,
          nextLeaseId := st.nextLeaseId + 1 } := by
    simp [complete, h2', h1]
  have h3 : storeLookup
      ({ st with
          tasks := taskRemove ((slot, st.nextLeaseId, now) :: st.tasks) slot,
          store := (slot, encodeU64 (gen slot.keyRepr)) :: st.store,
          nextLeaseId := st.nextLeaseId + 1 } : ServerState).store slot
      = some (encodeU64 (gen slot.keyRepr)) := storeLookup_cons_self slot _ _
  have hpa := processRequests_done slot now (encodeU64 (gen slot.keyRepr)) kindsAfter _ h3
  have hdec : decodeU64 (encodeU64 (gen slot.keyRepr)) = gen slot.keyRepr :=
    decodeU64_encodeU64 _ hv
  refine ⟨?_, ?_, ?_⟩
  · simp only [runConcurrentGenerate, dispatchClaim, hclaim, hpr, hcomp, hpa]
  · simp only [runConcurrentGenerate, dispatchClaim, hclaim, hpr, hcomp, hpa]
    simp
    omega
  · simp only [runConcurrentGenerate, dispatchClaim, hclaim, hpr, hcomp, hpa]
    intro v hvmem
    simp only [List.mem_cons, List.mem_append, List.mem_map, List.map_map] at hvmem
    rcases hvmem with h | h | h
    · exact h
    · rcases h with ⟨k, -, hk⟩
      simp [resolveResponse, hdec] at hk
      exact hk.symm
    · rcases h with ⟨k, -, hk⟩
      simp [resolveResponse, hdec] at hk
      exact hk.symm

theorem concurrent_generate_executes_once_witness :
    storeLookup (initServer 500).store ⟨"test", encodePair (3, 5)⟩ = none ∧
    taskLookup (initServer 500).tasks ⟨"test", encodePair (3, 5)⟩ = none ∧
    tuple_sum (encodePair (3, 5)) < 2 ^ 64 ∧
    ((runConcurrentGenerate (initServer 500) ⟨"test", encodePair (3, 5)⟩ tuple_sum
        .local [.remote] [.local, .remote] 0).execCount = 1 ∧
      (runConcurrentGenerate (initServer 500) ⟨"test", encodePair (3, 5)⟩ tuple_sum
        .local [.remote] [.local, .remote] 0).values.length = 1 + 1 + 2 ∧
      ∀ v ∈ (runConcurrentGenerate (initServer 500) ⟨"test", encodePair (3, 5)⟩ tuple_sum
        .local [.remote] [.local, .remote] 0).values, v = tuple_sum (encodePair (3, 5))) :=
  ⟨rfl, rfl, by decide,
    concurrent_generate_executes_once (initServer 500) ⟨"test", encodePair (3, 5)⟩
      tuple_sum .local [.remote] [.local, .remote] 0 rfl rfl (by decide)⟩

theorem runGenerateOnce_grant_ok (st : ServerState) (slot : Slot) (gen : Bytes → Option Nat)
    (v now : Nat)
    (h1 : storeLookup st.store slot = none) (h2 : taskLookup st.tasks slot = none)
    (hg : gen slot.keyRepr = some v) :
    runGenerateOnce st slot gen now =
      (.ok v, 1,
        { st with
          tasks := taskRemove ((slot, st.nextLeaseId, now) :: st.tasks) slot,
          store := (slot, encodeU64 v) :: st.store,
          nextLeaseId := st.nextLeaseId + 1 }) := by
  have hclaim := claim_fresh st slot now h1 h2
  have h2' := taskLookup_cons_self slot (st.nextLeaseId, now) st.tasks
  simp only [runGenerateOnce, hclaim, hg]
  simp [complete, h2', h1]

theorem runGenerateOnce_grant_fault (st : ServerState) (slot : Slot) (gen : Bytes → Option Nat)
    (now : Nat)
    (h1 : storeLookup st.store slot = none) (h2 : taskLookup st.tasks slot = none)
    (hg : gen slot.keyRepr = none) :
    runGenerateOnce st slot gen now =
      (.err .fault, 0,
        { st with
          tasks := taskRemove ((slot, st.nextLeaseId, now) :: st.tasks) slot,
          nextLeaseId := st.nextLeaseId + 1 }) := by
  have hclaim := claim_fresh st slot now h1 h2
  have h2' := taskLookup_cons_self slot (st.nextLeaseId, now) st.tasks
  simp only [runGenerateOnce, hclaim, hg]
  simp [failRelease, h2']

theorem runGenerateOnce_done (st : ServerState) (slot : Slot) (gen : Bytes → Option Nat)
    (now : Nat) (vb : Bytes) (h1 : storeLookup st.store slot = some vb) :
    runGenerateOnce st slot gen now = (.ok (decodeU64 vb), 0, st) := by
  simp [runGenerateOnce, claim_done st slot now vb h1]

/-- C2: a value computed and persisted before a server shutdown is returned by a
server restarted against the same root to a fresh generate call without re-running
the generator: the first run executes once, the post-restart run returns the same
value with zero executions. -/
theorem persisted_value_survives_restart
    (st : ServerState) (slot : Slot) (gen : Bytes → Nat) (now now2 : Nat)
    (h1 : storeLookup st.store slot = none)
    (h2 : taskLookup st.tasks slot = none)
    (hv : gen slot.keyRepr < 2 ^ 64) :
    (runGenerateOnce st slot (fun b => some (gen b)) now).1 = .ok (gen slot.keyRepr) ∧
    (runGenerateOnce st slot (fun b => some (gen b)) now).2.1 = 1 ∧
    (runGenerateOnce (restartServer (runGenerateOnce st slot (fun b => some (gen b)) now).2.2)
        slot (fun b => some (gen b)) now2).1 = .ok (gen slot.keyRepr) ∧
    (runGenerateOnce (restartServer (runGenerateOnce st slot (fun b => some (gen b)) now).2.2)
        slot (fun b => some (gen b)) now2).2.1 = 0 := by
  have hrun := runGenerateOnce_grant_ok st slot (fun b => some (gen b)) (gen slot.keyRepr) now
    h1 h2 rfl
  have hstore : storeLookup
      (restartServer (runGenerateOnce st slot (fun b => some (gen b)) now).2.2).store slot
      = some (encodeU64 (gen slot.keyRepr)) := by
    rw [hrun]
    exact storeLookup_cons_self slot _ _
  have hrun2 := runGenerateOnce_done
    (restartServer (runGenerateOnce st slot (fun b => some (gen b)) now).2.2)
    slot (fun b => some (gen b)) now2 (encodeU64 (gen slot.keyRepr)) hstore
  refine ⟨by rw [hrun], by rw [hrun], ?_, by rw [hrun2]⟩
  rw [hrun2]
  simp [decodeU64_encodeU64 _ hv]

theorem persisted_value_survives_restart_witness :
    storeLookup (initServer 500).store ⟨"test", encodePair (3, 5)⟩ = none ∧
    taskLookup (initServer 500).tasks ⟨"test", encodePair (3, 5)⟩ = none ∧
    tuple_sum (encodePair (3, 5)) < 2 ^ 64 ∧
    ((runGenerateOnce (initServer 500) ⟨"test", encodePair (3, 5)⟩
        (fun b => some (tuple_sum b)) 0).1 = .ok (tuple_sum (encodePair (3, 5))) ∧
      (runGenerateOnce (initServer 500) ⟨"test", encodePair (3, 5)⟩
        (fun b => some (tuple_sum b)) 0).2.1 = 1 ∧
      (runGenerateOnce
          (restartServer (runGenerateOnce (initServer 500) ⟨"test", encodePair (3, 5)⟩
            (fun b => some (tuple_sum b)) 0).2.2)
          ⟨"test", encodePair (3, 5)⟩ (fun b => some (tuple_sum b)) 7).1
        = .ok (tuple_sum (encodePair (3, 5))) ∧
      (runGenerateOnce
          (restartServer (runGenerateOnce (initServer 500) ⟨"test", encodePair (3, 5)⟩
            (fun b => some (tuple_sum b)) 0).2.2)
          ⟨"test", encodePair (3, 5)⟩ (fun b => some (tuple_sum b)) 7).2.1 = 0) :=
  ⟨rfl, rfl, by decide,
    persisted_value_survives_restart (initServer 500) ⟨"test", encodePair (3, 5)⟩
      tuple_sum 0 7 rfl rfl (by decide)⟩

/-- C4: a slot whose generator terminates abnormally surfaces the fault on the
originating handle with no successful execution counted, leaves the slot
immediately freed (Unclaimed, nothing persisted), and a subsequent call with a
non-faulting generator succeeds with exactly one successful execution; the system
performs no retry of its own. -/
theorem faulting_generator_frees_slot
    (st : ServerState) (slot : Slot) (genBad : Bytes → Option Nat) (gen : Bytes → Nat)
    (now1 now2 : Nat)
    (h1 : storeLookup st.store slot = none)
    (h2 : taskLookup st.tasks slot = none)
    (hbad : genBad slot.keyRepr = none) :
    (runGenerateOnce st slot genBad now1).1 = .err .fault ∧
    (runGenerateOnce st slot genBad now1).2.1 = 0 ∧
    taskLookup (runGenerateOnce st slot genBad now1).2.2.tasks slot = none ∧
    storeLookup (runGenerateOnce st slot genBad now1).2.2.store slot = none ∧
    (runGenerateOnce (runGenerateOnce st slot genBad now1).2.2 slot
        (fun b => some (gen b)) now2).1 = .ok (gen slot.keyRepr) ∧
    (runGenerateOnce (runGenerateOnce st slot genBad now1).2.2 slot
        (fun b => some (gen b)) now2).2.1 = 1 := by
  have hfault := runGenerateOnce_grant_fault st slot genBad now1 h1 h2 hbad
  have htask : taskLookup (runGenerateOnce st slot genBad now1).2.2.tasks slot = none := by
    rw [hfault]
    exact taskLookup_taskRemove_self _ slot
  have hstore : storeLookup (runGenerateOnce st slot genBad now1).2.2.store slot = none := by
    rw [hfault]
    exact h1
  have hretry := runGenerateOnce_grant_ok (runGenerateOnce st slot genBad now1).2.2 slot
    (fun b => some (gen b)) (gen slot.keyRepr) now2 hstore htask rfl
  exact ⟨by rw [hfault], by rw [hfault], htask, hstore, by rw [hretry], by rw [hretry]⟩

theorem faulting_generator_frees_slot_witness :
    storeLookup (initServer 500).store ⟨"test", encodePair (3, 5)⟩ = none ∧
    taskLookup (initServer 500).tasks ⟨"test", encodePair (3, 5)⟩ = none ∧
    (fun (_ : Bytes) => (none : Option Nat)) (Slot.mk "test" (encodePair (3, 5))).keyRepr
      = none ∧
    ((runGenerateOnce (initServer 500) ⟨"test", encodePair (3, 5)⟩
        (fun _ => none) 0).1 = .err .fault ∧
      (runGenerateOnce (initServer 500) ⟨"test", encodePair (3, 5)⟩
        (fun _ => none) 0).2.1 = 0 ∧
      taskLookup (runGenerateOnce (initServer 500) ⟨"test", encodePair (3, 5)⟩
        (fun _ => none) 0).2.2.tasks ⟨"test", encodePair (3, 5)⟩ = none ∧
      storeLookup (runGenerateOnce (initServer 500) ⟨"test", encodePair (3, 5)⟩
        (fun _ => none) 0).2.2.store ⟨"test", encodePair (3, 5)⟩ = none ∧
      (runGenerateOnce (runGenerateOnce (initServer 500) ⟨"test", encodePair (3, 5)⟩
          (fun _ => none) 0).2.2 ⟨"test", encodePair (3, 5)⟩
          (fun b => some (tuple_sum b)) 1).1 = .ok (tuple_sum (encodePair (3, 5))) ∧
      (runGenerateOnce (runGenerateOnce (initServer 500) ⟨"test", encodePair (3, 5)⟩
          (fun _ => none) 0).2.2 ⟨"test", encodePair (3, 5)⟩
          (fun b => some (tuple_sum b)) 1).2.1 = 1) :=
  ⟨rfl, rfl, rfl,
    faulting_generator_frees_slot (initServer 500) ⟨"test", encodePair (3, 5)⟩
      (fun _ => none) tuple_sum 0 1 rfl rfl rfl⟩

/-- C9: any slot that was not Done when the server stopped (in-flight or failed,
i.e. without a durable record) starts Unclaimed on a restarted server, and a fresh
request after the restart triggers exactly one new successful execution computed
from scratch. -/
theorem restart_forgets_inflight
    (st : ServerState) (slot : Slot) (gen : Bytes → Nat) (now : Nat)
    (hnd : storeLookup st.store slot = none) :
    taskLookup (restartServer st).tasks slot = none ∧
    (runGenerateOnce (restartServer st) slot (fun b => some (gen b)) now).1
      = .ok (gen slot.keyRepr) ∧
    (runGenerateOnce (restartServer st) slot (fun b => some (gen b)) now).2.1 = 1 := by
  have htask : taskLookup (restartServer st).tasks slot = none := rfl
  have hstore : storeLookup (restartServer st).store slot = none := hnd
  have hrun := runGenerateOnce_grant_ok (restartServer st) slot
    (fun b => some (gen b)) (gen slot.keyRepr) now hstore htask rfl
  exact ⟨htask, by rw [hrun], by rw [hrun]⟩

theorem restart_forgets_inflight_witness :
    storeLookup
      ({ heartbeatTimeout := 500, store := [],
         tasks := [(⟨"test", encodePair (3, 5)⟩, 0, 0)], nextLeaseId := 1 }
        : ServerState).store ⟨"test", encodePair (3, 5)⟩ = none ∧
    (taskLookup
      (restartServer
        { heartbeatTimeout := 500, store := [],
          tasks := [(⟨"test", encodePair (3, 5)⟩, 0, 0)], nextLeaseId := 1 }).tasks
      ⟨"test", encodePair (3, 5)⟩ = none ∧
     (runGenerateOnce
        (restartServer
          { heartbeatTimeout := 500, store := [],
            tasks := [(⟨"test", encodePair (3, 5)⟩, 0, 0)], nextLeaseId := 1 })
        ⟨"test", encodePair (3, 5)⟩ (fun b => some (tuple_sum b)) 3).1
        = .ok (tuple_sum (encodePair (3, 5))) ∧
     (runGenerateOnce
        (restartServer
          { heartbeatTimeout := 500, store := [],
            tasks := [(⟨"test", encodePair (3, 5)⟩, 0, 0)], nextLeaseId := 1 })
        ⟨"test", encodePair (3, 5)⟩ (fun b => some (tuple_sum b)) 3).2.1 = 1) :=
  ⟨rfl,
    restart_forgets_inflight
      { heartbeatTimeout := 500, store := [],
        tasks := [(⟨"test", encodePair (3, 5)⟩, 0, 0)], nextLeaseId := 1 }
      ⟨"test", encodePair (3, 5)⟩ tuple_sum 3 rfl⟩

/-- Startup failure kinds: `rootConflict` is a second server attempted on an in-use
root, fatal at startup (spec section 7). -/
inductive StartError where
  | rootConflict
deriving DecidableEq, Repr

/-- The set of storage roots currently locked by live servers. -/
structure World where
  heldRoots : List String
deriving DecidableEq, Repr

/-- Modelled from the spec: server startup acquires an exclusive lock on its storage
root and holds it for the server's lifetime; if the root is already held by a live
server, startup fails deterministically with a root conflict and nothing else
changes (spec sections 3, 4.4 and 7). -/
def startServer (w : World) (root : String) (timeout : Nat) :
    Except StartError (World × ServerState) :=
  if root ∈ w.heldRoots then .error .rootConflict
  else .ok (⟨root :: w.heldRoots⟩, initServer timeout)

/-- C3: starting a second server against a root already held by a live server fails
deterministically at startup with a root conflict, while the first server's state
is untouched by the failed attempt and it continues to serve generate calls
correctly. -/
theorem second_server_same_root_fails
    (w : World) (root : String) (t1 t2 : Nat) (slot : Slot) (gen : Bytes → Nat) (now : Nat)
    (hfree : root ∉ w.heldRoots) :
    startServer w root t1 = .ok (⟨root :: w.heldRoots⟩, initServer t1) ∧
    startServer ⟨root :: w.heldRoots⟩ root t2 = .error .rootConflict ∧
    (runGenerateOnce (initServer t1) slot (fun b => some (gen b)) now).1
      = .ok (gen slot.keyRepr) ∧
    (runGenerateOnce (initServer t1) slot (fun b => some (gen b)) now).2.1 = 1 := by
  have hrun := runGenerateOnce_grant_ok (initServer t1) slot
    (fun b => some (gen b)) (gen slot.keyRepr) now rfl rfl rfl
  exact ⟨by simp [startServer, hfree], by simp [startServer], by rw [hrun], by rw [hrun]⟩

theorem second_server_same_root_fails_witness :
    "build/test_root" ∉ (World.mk []).heldRoots ∧
    (startServer ⟨[]⟩ "build/test_root" 500
        = .ok (⟨["build/test_root"]⟩, initServer 500) ∧
      startServer ⟨["build/test_root"]⟩ "build/test_root" 500 = .error .rootConflict ∧
      (runGenerateOnce (initServer 500) ⟨"test", encodePair (3, 5)⟩
        (fun b => some (tuple_sum b)) 0).1 = .ok (tuple_sum (encodePair (3, 5))) ∧
      (runGenerateOnce (initServer 500) ⟨"test", encodePair (3, 5)⟩
        (fun b => some (tuple_sum b)) 0).2.1 = 1) :=
  ⟨by simp,
    second_server_same_root_fails ⟨[]⟩ "build/test_root" 500 500
      ⟨"test", encodePair (3, 5)⟩ tuple_sum 0 (by simp)⟩

/-- The times at which the owner's background liveness task has sent heartbeats by
time `t`: every multiple of `interval` from the grant at time 0 (spec section 4.1,
step 3). -/
def heartbeatsUpTo (interval t : Nat) : List Nat :=
  (List.range (t / interval + 1)).map (· * interval)

/-- Application of a sequence of heartbeats for one lease to the server state. -/
def applyHeartbeats (st : ServerState) (slot : Slot) (leaseId : Nat) (times : List Nat) :
    ServerState :=
  times.foldl (fun s tm => heartbeat s slot leaseId tm) st

/-- Outcome of the long-running-generator scenario: the owner's and the second
caller's resolved values, the second caller's claim response, the number of
generator executions, and whether the lease was still alive at the expiry sweep. -/
structure LongRunResult where
  ownerValue : Nat
  joinResponse : ClaimResponse
  joinerValue : Nat
  execCount : Nat
  aliveAtSweep : Bool
  final : ServerState
deriving DecidableEq, Repr

/-- Modelled from the spec: a generator that runs for a long time while its
background heartbeat task keeps renewing the lease (spec sections 4.1 and 4.2).
The owner is granted at time 0; heartbeats arrive at every multiple of `interval`;
the heartbeat monitor sweeps for expired leases at time `t`, immediately after
which a second concurrent call arrives; the generator later finishes and the owner
uploads the serialized result, waking the joiner. -/
def runLongRunningScenario (st : ServerState) (slot : Slot) (gen : Bytes → Nat)
    (interval t : Nat) (joinKind : ClientKind) : LongRunResult :=
  let p0 := claim st slot 0
  match p0.1 with
  | .granted leaseId =>
    let st2 := applyHeartbeats p0.2 slot leaseId (heartbeatsUpTo interval t)
    let st3 := sweepExpired st2 t
    let pJ := dispatchClaim joinKind st3 slot t
    let v := gen slot.keyRepr
    let st5 := complete pJ.2 slot leaseId (encodeU64 v)
    { ownerValue := v
      joinResponse := pJ.1
      joinerValue := resolveResponse (encodeU64 v) pJ.1
      execCount := 1
      aliveAtSweep := (taskLookup st3.tasks slot).isSome
      final := st5 }
  | .alreadyDone vb =>
    { ownerValue := decodeU64 vb, joinResponse := p0.1, joinerValue := decodeU64 vb,
      execCount := 0, aliveAtSweep := (taskLookup p0.2.tasks slot).isSome, final := p0.2 }
  | .join _ =>
    { ownerValue := 0, joinResponse := p0.1, joinerValue := 0,
      execCount := 0, aliveAtSweep := (taskLookup p0.2.tasks slot).isSome, final := p0.2 }

theorem heartbeat_head (hb : Nat) (store : List (Slot × Bytes)) (slot : Slot)
    (id x tm : Nat) (rest : List (Slot × Nat × Nat)) (nid : Nat) :
    heartbeat ⟨hb, store, (slot, id, x) :: rest, nid⟩ slot id tm
      = ⟨hb, store, (slot, id, tm) :: rest, nid⟩ := by
  simp [heartbeat, taskHeartbeat]

theorem applyHeartbeats_head (hb : Nat) (store : List (Slot × Bytes)) (slot : Slot)
    (id : Nat) (rest : List (Slot × Nat × Nat)) (nid : Nat) (times : List Nat) :
    ∀ x : Nat,
      applyHeartbeats ⟨hb, store, (slot, id, x) :: rest, nid⟩ slot id times
        = ⟨hb, store, (slot, id, times.foldl (fun _ tm => tm) x) :: rest, nid⟩ := by
  induction times with
  | nil => intro x; rfl
  | cons tm rest' ih =>
    intro x
    show applyHeartbeats
      (heartbeat ⟨hb, store, (slot, id, x) :: rest, nid⟩ slot id tm) slot id rest' = _
    rw [heartbeat_head, ih tm]
    simp [List.foldl]

theorem foldl_last_of_heartbeats (i n x : Nat) :
    List.foldl (fun _ tm => tm) x ((List.range (n + 1)).map (· * i)) = n * i := by
  rw [List.range_succ, List.map_append, List.foldl_append]
  simp

/-- C5: a generator that runs longer than the heartbeat timeout, with its background
heartbeat task renewing the lease at every multiple of `interval ≤ timeout`, is
never reassigned: at any sweep time `t` during the run the lease is still alive, a
second concurrent call at that moment joins the existing lease instead of being
granted a new one, total generator executions equal 1, and both callers resolve to
the generator's value. -/
theorem long_running_task_not_reassigned
    (st : ServerState) (slot : Slot) (gen : Bytes → Nat) (interval t duration : Nat)
    (joinKind : ClientKind)
    (h1 : storeLookup st.store slot = none)
    (h2 : taskLookup st.tasks slot = none)
    (hi : 0 < interval)
    (hto : interval ≤ st.heartbeatTimeout)
    (_hlong : st.heartbeatTimeout < duration)
    (_ht : t ≤ duration)
    (hv : gen slot.keyRepr < 2 ^ 64) :
    (runLongRunningScenario st slot gen interval t joinKind).aliveAtSweep = true ∧
    (runLongRunningScenario st slot gen interval t joinKind).joinResponse
      = .join st.nextLeaseId ∧
    (runLongRunningScenario st slot gen interval t joinKind).execCount = 1 ∧
    (runLongRunningScenario st slot gen interval t joinKind).ownerValue
      = gen slot.keyRepr ∧
    (runLongRunningScenario st slot gen interval t joinKind).joinerValue
      = gen slot.keyRepr := by
  have hclaim := claim_fresh st slot 0 h1 h2
  have hhb : applyHeartbeats
      ({ st with
          tasks := (slot, st.nextLeaseId, 0) :: st.tasks,
          nextLeaseId := st.nextLeaseId + 1 } : ServerState)
      slot st.nextLeaseId (heartbeatsUpTo interval t)
      = ⟨st.heartbeatTimeout, st.store,
          (slot, st.nextLeaseId, t / interval * interval) :: st.tasks,
          st.nextLeaseId + 1⟩ := by
    have h := applyHeartbeats_head st.heartbeatTimeout st.store slot st.nextLeaseId
      st.tasks (st.nextLeaseId + 1) (heartbeatsUpTo interval t) 0
    rw [heartbeatsUpTo, foldl_last_of_heartbeats] at h
    exact h
  have hmod : t % interval < interval := Nat.mod_lt _ hi
  have hdm := Nat.mod_add_div t interval
  have hkeep : t - t / interval * interval ≤ st.heartbeatTimeout := by
    rw [Nat.mul_comm]
    omega
  have hsweep : sweepExpired
      (⟨st.heartbeatTimeout, st.store,
          (slot, st.nextLeaseId, t / interval * interval) :: st.tasks,
          st.nextLeaseId + 1⟩ : ServerState) t
      = ⟨st.heartbeatTimeout, st.store,
          (slot, st.nextLeaseId, t / interval * interval) ::
            st.tasks.filter (fun e => t - e.2.2 ≤ st.heartbeatTimeout),
          st.nextLeaseId + 1⟩ := by
    have hkeep2 : t ≤ st.heartbeatTimeout + t / interval * interval := by omega
    simp [sweepExpired, List.filter_cons, hkeep, hkeep2]
  have htask : taskLookup
      ((slot, st.nextLeaseId, t / interval * interval) ::
        st.tasks.filter (fun e => t - e.2.2 ≤ st.heartbeatTimeout)) slot
      = some (st.nextLeaseId, t / interval * interval) :=
    taskLookup_cons_self slot _ _
  have hjoin : claim
      (⟨st.heartbeatTimeout, st.store,
          (slot, st.nextLeaseId, t / interval * interval) ::
            st.tasks.filter (fun e => t - e.2.2 ≤ st.heartbeatTimeout),
          st.nextLeaseId + 1⟩ : ServerState) slot t
      = (.join st.nextLeaseId, _) :=
    claim_leased _ slot t st.nextLeaseId (t / interval * interval) h1 htask
  have hdec : decodeU64 (encodeU64 (gen slot.keyRepr)) = gen slot.keyRepr :=
    decodeU64_encodeU64 _ hv
  refine ⟨?_, ?_, ?_, ?_, ?_⟩ <;>
    simp only [runLongRunningScenario, hclaim, dispatchClaim, hhb, hsweep, hjoin,
      htask, resolveResponse, hdec, Option.isSome_some]

theorem long_running_task_not_reassigned_witness :
    storeLookup (initServer 500).store ⟨"test", encodePair (3, 5)⟩ = none ∧
    taskLookup (initServer 500).tasks ⟨"test", encodePair (3, 5)⟩ = none ∧
    0 < 200 ∧ 200 ≤ (initServer 500).heartbeatTimeout ∧
    (initServer 500).heartbeatTimeout < 1000 ∧ 700 ≤ 1000 ∧
    tuple_sum (encodePair (3, 5)) < 2 ^ 64 ∧
    ((runLongRunningScenario (initServer 500) ⟨"test", encodePair (3, 5)⟩ tuple_sum
        200 700 .remote).aliveAtSweep = true ∧
      (runLongRunningScenario (initServer 500) ⟨"test", encodePair (3, 5)⟩ tuple_sum
        200 700 .remote).joinResponse = .join (initServer 500).nextLeaseId ∧
      (runLongRunningScenario (initServer 500) ⟨"test", encodePair (3, 5)⟩ tuple_sum
        200 700 .remote).execCount = 1 ∧
      (runLongRunningScenario (initServer 500) ⟨"test", encodePair (3, 5)⟩ tuple_sum
        200 700 .remote).ownerValue = tuple_sum (encodePair (3, 5)) ∧
      (runLongRunningScenario (initServer 500) ⟨"test", encodePair (3, 5)⟩ tuple_sum
        200 700 .remote).joinerValue = tuple_sum (encodePair (3, 5))) :=
  ⟨rfl, rfl, by decide, by decide, by decide, by decide, by decide,
    long_running_task_not_reassigned (initServer 500) ⟨"test", encodePair (3, 5)⟩
      tuple_sum 200 700 1000 .remote rfl rfl (by decide) (by decide) (by decide)
      (by decide) (by decide)⟩

/-- Modelled from the spec and the test's observable behavior (the `tests::Key`
type is not under src/): outcome of a key-intrinsic generation — a value, a
semantic rejection of the key, or abnormal termination (spec sections 4.5 and 7). -/
inductive GenOutcome where
  | ok (v : Nat)
  | invalid (msg : String)
  | fault
deriving DecidableEq, Repr

/-- Modelled from the spec: the key-intrinsic generator of the test key type, per
`run_cacheable_api_test` — key 5 is rejected as semantically invalid with the
stable descriptive message "invalid key", key 8 terminates abnormally, and any
other key generates its own value. -/
def keyGen (n : Nat) : GenOutcome :=
  if n = 5 then .invalid "invalid key"
  else if n = 8 then .fault
  else .ok n

/-- Modelled from the spec: the `get` entry point — the key's own type supplies the
generation logic, identically across local and remote clients; an InvalidInput
rejection is returned as a typed error, is not treated as a cacheable success, and
the lease-release path runs on every exit (spec sections 4.1, 4.5 and 7). -/
def getByKey (kind : ClientKind) (st : ServerState) (ns : String) (n : Nat) (now : Nat) :
    HandleResult × ServerState :=
  let slot : Slot := ⟨ns, encodeU64 n⟩
  let p := dispatchClaim kind st slot now
  match p.1 with
  | .alreadyDone vb => (.ok (decodeU64 vb), p.2)
  | .granted leaseId =>
    match keyGen n with
    | .ok v => (.ok v, complete p.2 slot leaseId (encodeU64 v))
    | .invalid msg => (.err (.invalidInput msg), failRelease p.2 slot leaseId)
    | .fault => (.err .fault, failRelease p.2 slot leaseId)
  | .join _ => (.pending, p.2)

theorem getByKey_invalid (kind : ClientKind) (st : ServerState) (ns : String) (now : Nat)
    (h1 : storeLookup st.store ⟨ns, encodeU64 5⟩ = none)
    (h2 : taskLookup st.tasks ⟨ns, encodeU64 5⟩ = none) :
    getByKey kind st ns 5 now
      = (.err (.invalidInput "invalid key"),
          { st with
            tasks := taskRemove ((⟨ns, encodeU64 5⟩, st.nextLeaseId, now) :: st.tasks)
              ⟨ns, encodeU64 5⟩,
            nextLeaseId := st.nextLeaseId + 1 }) := by
  have hclaim := claim_fresh st ⟨ns, encodeU64 5⟩ now h1 h2
  have h2' := taskLookup_cons_self (⟨ns, encodeU64 5⟩ : Slot) (st.nextLeaseId, now) st.tasks
  simp only [getByKey, dispatchClaim, hclaim]
  simp [keyGen, failRelease, h2']

/-- C7: a key the key-intrinsic generator rejects as semantically invalid is
answered with the stable, descriptive InvalidInput error "invalid key" on every
call, identically for local and remote clients, and the rejection is never
persisted as a cacheable success. -/
theorem invalid_key_error_stable
    (kind1 kind2 : ClientKind) (st : ServerState) (ns : String) (now1 now2 : Nat)
    (h1 : storeLookup st.store ⟨ns, encodeU64 5⟩ = none)
    (h2 : taskLookup st.tasks ⟨ns, encodeU64 5⟩ = none) :
    (getByKey kind1 st ns 5 now1).1 = .err (.invalidInput "invalid key") ∧
    (getByKey kind2 (getByKey kind1 st ns 5 now1).2 ns 5 now2).1
      = .err (.invalidInput "invalid key") ∧
    (getByKey kind1 st ns 5 now1).1 = (getByKey kind2 st ns 5 now1).1 ∧
    storeLookup (getByKey kind1 st ns 5 now1).2.store ⟨ns, encodeU64 5⟩ = none ∧
    storeLookup (getByKey kind2 (getByKey kind1 st ns 5 now1).2 ns 5 now2).2.store
      ⟨ns, encodeU64 5⟩ = none := by
  have hcall1 := getByKey_invalid kind1 st ns now1 h1 h2
  have h1F : storeLookup (getByKey kind1 st ns 5 now1).2.store ⟨ns, encodeU64 5⟩ = none := by
    rw [hcall1]
    exact h1
  have h2F : taskLookup (getByKey kind1 st ns 5 now1).2.tasks ⟨ns, encodeU64 5⟩ = none := by
    rw [hcall1]
    exact taskLookup_taskRemove_self _ _
  have hcall2 := getByKey_invalid kind2 (getByKey kind1 st ns 5 now1).2 ns now2 h1F h2F
  have hcall1' := getByKey_invalid kind2 st ns now1 h1 h2
  refine ⟨by rw [hcall1], by rw [hcall2], by rw [hcall1, hcall1'], h1F, ?_⟩
  rw [hcall2]
  exact h1F

theorem invalid_key_error_stable_witness :
    storeLookup (initServer 500).store ⟨"test", encodeU64 5⟩ = none ∧
    taskLookup (initServer 500).tasks ⟨"test", encodeU64 5⟩ = none ∧
    ((getByKey .local (initServer 500) "test" 5 0).1
        = .err (.invalidInput "invalid key") ∧
      (getByKey .remote (getByKey .local (initServer 500) "test" 5 0).2 "test" 5 1).1
        = .err (.invalidInput "invalid key") ∧
      (getByKey .local (initServer 500) "test" 5 0).1
        = (getByKey .remote (initServer 500) "test" 5 0).1 ∧
      storeLookup (getByKey .local (initServer 500) "test" 5 0).2.store
        ⟨"test", encodeU64 5⟩ = none ∧
      storeLookup
        (getByKey .remote (getByKey .local (initServer 500) "test" 5 0).2 "test" 5 1).2.store
        ⟨"test", encodeU64 5⟩ = none) :=
  ⟨rfl, rfl,
    invalid_key_error_stable .local .remote (initServer 500) "test" 0 1 rfl rfl⟩

/-- Modelled from the spec: the mutable-context variant of the key-intrinsic
generator — it records the generated value in the caller-owned context exactly when
generation succeeds, and leaves the context untouched on rejection or abnormal
termination (`run_cacheable_api_test` observes the context holding exactly the one
successfully generated value). -/
def keyGenWithState (n : Nat) (ctx : List Nat) : GenOutcome × List Nat :=
  match keyGen n with
  | .ok v => (.ok v, ctx ++ [v])
  | .invalid msg => (.invalid msg, ctx)
  | .fault => (.fault, ctx)

/-- Modelled from the spec: `get_with_state` — the caller-owned mutable context is
threaded into exactly the single execution that performs generation; joiners and
callers served from the store never see the generator run, so their context is
returned unchanged (spec section 4.5). -/
def getWithState (kind : ClientKind) (st : ServerState) (ns : String) (n : Nat)
    (ctx : List Nat) (now : Nat) : HandleResult × List Nat × ServerState :=
  let slot : Slot := ⟨ns, encodeU64 n⟩
  let p := dispatchClaim kind st slot now
  match p.1 with
  | .alreadyDone vb => (.ok (decodeU64 vb), ctx, p.2)
  | .granted leaseId =>
    match keyGenWithState n ctx with
    | (.ok v, ctx2) => (.ok v, ctx2, complete p.2 slot leaseId (encodeU64 v))
    | (.invalid msg, ctx2) => (.err (.invalidInput msg), ctx2, failRelease p.2 slot leaseId)
    | (.fault, ctx2) => (.err .fault, ctx2, failRelease p.2 slot leaseId)
  | .join _ => (.pending, ctx, p.2)

/-- C6: through `get_with_state`, the caller-owned context is mutated exactly once
per successfully generated slot — one appended value, by the one call that performs
generation — while joiners' contexts, the contexts of callers served from the
store, and the contexts passed to failing calls (invalid key, faulting generator)
are all returned untouched. -/
theorem context_mutated_once_by_generator
    (kind : ClientKind) (st : ServerState) (ns : String) (ctx : List Nat) (now : Nat) :
    (∀ n v, storeLookup st.store ⟨ns, encodeU64 n⟩ = none →
      taskLookup st.tasks ⟨ns, encodeU64 n⟩ = none →
      keyGen n = .ok v →
      (getWithState kind st ns n ctx now).1 = .ok v ∧
      (getWithState kind st ns n ctx now).2.1 = ctx ++ [v]) ∧
    (∀ n msg, storeLookup st.store ⟨ns, encodeU64 n⟩ = none →
      taskLookup st.tasks ⟨ns, encodeU64 n⟩ = none →
      keyGen n = .invalid msg →
      (getWithState kind st ns n ctx now).1 = .err (.invalidInput msg) ∧
      (getWithState kind st ns n ctx now).2.1 = ctx) ∧
    (∀ n, storeLookup st.store ⟨ns, encodeU64 n⟩ = none →
      taskLookup st.tasks ⟨ns, encodeU64 n⟩ = none →
      keyGen n = .fault →
      (getWithState kind st ns n ctx now).1 = .err .fault ∧
      (getWithState kind st ns n ctx now).2.1 = ctx) ∧
    (∀ n o lt, storeLookup st.store ⟨ns, encodeU64 n⟩ = none →
      taskLookup st.tasks ⟨ns, encodeU64 n⟩ = some (o, lt) →
      (getWithState kind st ns n ctx now).2.1 = ctx) ∧
    (∀ n vb, storeLookup st.store ⟨ns, encodeU64 n⟩ = some vb →
      (getWithState kind st ns n ctx now).2.1 = ctx) := by
  refine ⟨?_, ?_, ?_, ?_, ?_⟩
  · intro n v h1 h2 hk
    have hclaim := claim_fresh st ⟨ns, encodeU64 n⟩ now h1 h2
    constructor <;>
      simp [getWithState, dispatchClaim, hclaim, keyGenWithState, hk]
  · intro n msg h1 h2 hk
    have hclaim := claim_fresh st ⟨ns, encodeU64 n⟩ now h1 h2
    constructor <;>
      simp [getWithState, dispatchClaim, hclaim, keyGenWithState, hk]
  · intro n h1 h2 hk
    have hclaim := claim_fresh st ⟨ns, encodeU64 n⟩ now h1 h2
    constructor <;>
      simp [getWithState, dispatchClaim, hclaim, keyGenWithState, hk]
  · intro n o lt h1 h2
    have hclaim := claim_leased st ⟨ns, encodeU64 n⟩ now o lt h1 h2
    simp [getWithState, dispatchClaim, hclaim]
  · intro n vb h1
    have hclaim := claim_done st ⟨ns, encodeU64 n⟩ now vb h1
    simp [getWithState, dispatchClaim, hclaim]

theorem context_mutated_once_by_generator_witness :
    storeLookup (initServer 500).store ⟨"test_alt", encodeU64 0⟩ = none ∧
    taskLookup (initServer 500).tasks ⟨"test_alt", encodeU64 0⟩ = none ∧
    keyGen 0 = .ok 0 ∧
    ((getWithState .local (initServer 500) "test_alt" 0 [] 0).1 = .ok 0 ∧
      (getWithState .local (initServer 500) "test_alt" 0 [] 0).2.1 = [] ++ [0]) :=
  ⟨rfl, rfl, by decide,
    (context_mutated_once_by_generator .local (initServer 500) "test_alt" [] 0).1
      0 0 rfl rfl (by decide)⟩

theorem storeLookup_cons_ne (s s2 : Slot) (v : Bytes) (es : List (Slot × Bytes))
    (h : s ≠ s2) : storeLookup ((s, v) :: es) s2 = storeLookup es s2 := by
  simp [storeLookup, h]

theorem taskLookup_cons_ne (s s2 : Slot) (p : Nat × Nat) (ts : List (Slot × Nat × Nat))
    (h : s ≠ s2) : taskLookup ((s, p) :: ts) s2 = taskLookup ts s2 := by
  simp [taskLookup, h]

theorem taskLookup_taskRemove_other (ts : List (Slot × Nat × Nat)) (s s2 : Slot)
    (h : s ≠ s2) : taskLookup (taskRemove ts s) s2 = taskLookup ts s2 := by
  induction ts with
  | nil => rfl
  | cons e rest ih =>
    by_cases he : e.1 = s
    · have hne : e.1 ≠ s2 := by rw [he]; exact h
      rw [show (e :: rest : List (Slot × Nat × Nat)) = (e.1, e.2) :: rest by simp]
      rw [taskLookup_cons_ne e.1 s2 e.2 rest hne]
      simpa [taskRemove, List.filter, he] using ih
    · rw [show (e :: rest : List (Slot × Nat × Nat)) = (e.1, e.2) :: rest by simp]
      by_cases he2 : e.1 = s2
      · simp [taskRemove, List.filter, he, taskLookup, he2, Ne.symm h]
      · rw [taskLookup_cons_ne e.1 s2 e.2 rest he2]
        simpa [taskRemove, List.filter, he, taskLookup, he2] using ih

theorem claim_frame (st : ServerState) (slot s2 : Slot) (now : Nat) (h : slot ≠ s2) :
    storeLookup (claim st slot now).2.store s2 = storeLookup st.store s2 ∧
    taskLookup (claim st slot now).2.tasks s2 = taskLookup st.tasks s2 := by
  rcases hs : storeLookup st.store slot with _ | v
  · rcases ht : taskLookup st.tasks slot with _ | p
    · rw [claim_fresh st slot now hs ht]
      exact ⟨rfl, taskLookup_cons_ne slot s2 _ st.tasks h⟩
    · rw [claim_leased st slot now p.1 p.2 hs (by rw [ht])]
      exact ⟨rfl, rfl⟩
  · rw [claim_done st slot now v hs]
    exact ⟨rfl, rfl⟩

theorem processRequests_frame (slot s2 : Slot) (now : Nat) (h : slot ≠ s2)
    (kinds : List ClientKind) :
    ∀ st : ServerState,
      storeLookup (processRequests st slot kinds now).2.store s2
        = storeLookup st.store s2 ∧
      taskLookup (processRequests st slot kinds now).2.tasks s2
        = taskLookup st.tasks s2 := by
  induction kinds with
  | nil => intro st; exact ⟨rfl, rfl⟩
  | cons k rest ih =>
    intro st
    have hc := claim_frame st slot s2 now h
    have hr := ih (claim st slot now).2
    simp only [processRequests, dispatchClaim]
    exact ⟨hr.1.trans hc.1, hr.2.trans hc.2⟩

theorem complete_frame (st : ServerState) (slot s2 : Slot) (leaseId : Nat) (vb : Bytes)
    (h : slot ≠ s2) :
    storeLookup (complete st slot leaseId vb).store s2 = storeLookup st.store s2 ∧
    taskLookup (complete st slot leaseId vb).tasks s2 = taskLookup st.tasks s2 := by
  rcases ht : taskLookup st.tasks slot with _ | p
  · simp [complete, ht]
  · by_cases ho : p.1 = leaseId
    · rcases hs : storeLookup st.store slot with _ | v
      · have : complete st slot leaseId vb =
            { st with
              tasks := taskRemove st.tasks slot,
              store := (slot, vb) :: st.store } := by
          simp [complete, ht, hs, ho]
        rw [this]
        exact ⟨storeLookup_cons_ne slot s2 vb st.store h,
          taskLookup_taskRemove_other st.tasks slot s2 h⟩
      · have : complete st slot leaseId vb =
            { st with tasks := taskRemove st.tasks slot } := by
          simp [complete, ht, hs, ho]
        rw [this]
        exact ⟨rfl, taskLookup_taskRemove_other st.tasks slot s2 h⟩
    · simp [complete, ht, ho]

theorem runConcurrentGenerate_fresh_eq
    (st : ServerState) (slot : Slot) (gen : Bytes → Nat)
    (kFirst : ClientKind) (kindsJoin kindsAfter : List ClientKind) (now : Nat)
    (h1 : storeLookup st.store slot = none)
    (h2 : taskLookup st.tasks slot = none) :
    runConcurrentGenerate st slot gen kFirst kindsJoin kindsAfter now =
      { values := gen slot.keyRepr ::
          (kindsJoin.map (fun _ => decodeU64 (encodeU64 (gen slot.keyRepr))) ++
            kindsAfter.map (fun _ => decodeU64 (encodeU64 (gen slot.keyRepr)))),
        execCount := 1,
        final := { st with
          tasks := taskRemove ((slot, st.nextLeaseId, now) :: st.tasks) slot,
          store := (slot, encodeU64 (gen slot.keyRepr)) :: st.store,
          nextLeaseId := st.nextLeaseId + 1 } } := by
  have hclaim := claim_fresh st slot now h1 h2
  have h2' : taskLookup
      ({ st with
          tasks := (slot, st.nextLeaseId, now) :: st.tasks,
          nextLeaseId := st.nextLeaseId + 1 } : ServerState).tasks slot
      = some (st.nextLeaseId, now) := taskLookup_cons_self slot _ _
  have hpr := processRequests_leased slot now st.nextLeaseId now kindsJoin
    { st with
        tasks := (slot, st.nextLeaseId, now) :: st.tasks,
        nextLeaseId := st.nextLeaseId + 1 } h1 h2'
  have hcomp : complete
      ({ st with
          tasks := (slot, st.nextLeaseId, now) :: st.tasks,
          nextLeaseId := st.nextLeaseId + 1 } : ServerState)
      slot st.nextLeaseId (encodeU64 (gen slot.keyRepr))
      = { st with
          tasks := taskRemove ((slot, st.nextLeaseId, now) :: st.tasks) slot,
          store := (slot, encodeU64 (gen slot.keyRepr)) :: st.store,
          nextLeaseId := st.nextLeaseId + 1 } := by
    simp [complete, h2', h1]
  have h3 : storeLookup
      ({ st with
          tasks := taskRemove ((slot, st.nextLeaseId, now) :: st.tasks) slot,
          store := (slot, encodeU64 (gen slot.keyRepr)) :: st.store,
          nextLeaseId := st.nextLeaseId + 1 } : ServerState).store slot
      = some (encodeU64 (gen slot.keyRepr)) := storeLookup_cons_self slot _ _
  have hpa := processRequests_done slot now (encodeU64 (gen slot.keyRepr)) kindsAfter _ h3
  simp only [runConcurrentGenerate, dispatchClaim, hclaim, hpr, hcomp, hpa]
  simp [resolveResponse, Function.comp]

/-- C8: slots in distinct namespaces never collide even under the identical key:
generating under the same key in two different namespaces runs each namespace's
generator independently, exactly once each, and every handle of each run resolves
to its own namespace's value. -/
theorem namespaces_never_collide
    (st : ServerState) (ns1 ns2 : String) (key : Bytes) (gen1 gen2 : Bytes → Nat)
    (kF kA : ClientKind) (now : Nat)
    (hns : ns1 ≠ ns2)
    (h1s : storeLookup st.store ⟨ns1, key⟩ = none)
    (h1t : taskLookup st.tasks ⟨ns1, key⟩ = none)
    (h2s : storeLookup st.store ⟨ns2, key⟩ = none)
    (h2t : taskLookup st.tasks ⟨ns2, key⟩ = none)
    (hv1 : gen1 key < 2 ^ 64) (hv2 : gen2 key < 2 ^ 64) :
    (⟨ns1, key⟩ : Slot) ≠ ⟨ns2, key⟩ ∧
    (runConcurrentGenerate st ⟨ns1, key⟩ gen1 kF [] [kA] now).execCount = 1 ∧
    (∀ v ∈ (runConcurrentGenerate st ⟨ns1, key⟩ gen1 kF [] [kA] now).values,
      v = gen1 key) ∧
    (runConcurrentGenerate (runConcurrentGenerate st ⟨ns1, key⟩ gen1 kF [] [kA] now).final
        ⟨ns2, key⟩ gen2 kF [] [kA] now).execCount = 1 ∧
    (∀ v ∈ (runConcurrentGenerate
        (runConcurrentGenerate st ⟨ns1, key⟩ gen1 kF [] [kA] now).final
        ⟨ns2, key⟩ gen2 kF [] [kA] now).values, v = gen2 key) := by
  have hne : (⟨ns1, key⟩ : Slot) ≠ ⟨ns2, key⟩ := by
    intro hc
    exact hns (congrArg Slot.ns hc)
  have hrun1 := runConcurrentGenerate_fresh_eq st ⟨ns1, key⟩ gen1 kF [] [kA] now h1s h1t
  have hdec1 : decodeU64 (encodeU64 (gen1 key)) = gen1 key := decodeU64_encodeU64 _ hv1
  have hdec2 : decodeU64 (encodeU64 (gen2 key)) = gen2 key := decodeU64_encodeU64 _ hv2
  have h2s' : storeLookup
      (runConcurrentGenerate st ⟨ns1, key⟩ gen1 kF [] [kA] now).final.store
      ⟨ns2, key⟩ = none := by
    rw [hrun1]
    rw [storeLookup_cons_ne _ _ _ _ hne]
    exact h2s
  have h2t' : taskLookup
      (runConcurrentGenerate st ⟨ns1, key⟩ gen1 kF [] [kA] now).final.tasks
      ⟨ns2, key⟩ = none := by
    rw [hrun1]
    show taskLookup (taskRemove _ _) _ = none
    rw [taskLookup_taskRemove_other _ _ _ hne]
    rw [taskLookup_cons_ne _ _ _ _ hne]
    exact h2t
  have hrun2 := runConcurrentGenerate_fresh_eq
    (runConcurrentGenerate st ⟨ns1, key⟩ gen1 kF [] [kA] now).final
    ⟨ns2, key⟩ gen2 kF [] [kA] now h2s' h2t'
  refine ⟨hne, by rw [hrun1], ?_, by rw [hrun2], ?_⟩
  · rw [hrun1]
    simp [hdec1]
  · rw [hrun2]
    simp [hdec2]

theorem namespaces_never_collide_witness :
    "test" ≠ "test_alt" ∧
    storeLookup (initServer 500).store ⟨"test", encodePair (3, 5)⟩ = none ∧
    taskLookup (initServer 500).tasks ⟨"test", encodePair (3, 5)⟩ = none ∧
    storeLookup (initServer 500).store ⟨"test_alt", encodePair (3, 5)⟩ = none ∧
    taskLookup (initServer 500).tasks ⟨"test_alt", encodePair (3, 5)⟩ = none ∧
    tuple_sum (encodePair (3, 5)) < 2 ^ 64 ∧
    tuple_multiply (encodePair (3, 5)) < 2 ^ 64 ∧
    ((⟨"test", encodePair (3, 5)⟩ : Slot) ≠ ⟨"test_alt", encodePair (3, 5)⟩ ∧
      (runConcurrentGenerate (initServer 500) ⟨"test", encodePair (3, 5)⟩ tuple_sum
        .local [] [.remote] 0).execCount = 1 ∧
      (∀ v ∈ (runConcurrentGenerate (initServer 500) ⟨"test", encodePair (3, 5)⟩ tuple_sum
        .local [] [.remote] 0).values, v = tuple_sum (encodePair (3, 5))) ∧
      (runConcurrentGenerate
        (runConcurrentGenerate (initServer 500) ⟨"test", encodePair (3, 5)⟩ tuple_sum
          .local [] [.remote] 0).final
        ⟨"test_alt", encodePair (3, 5)⟩ tuple_multiply .local [] [.remote] 0).execCount
        = 1 ∧
      (∀ v ∈ (runConcurrentGenerate
        (runConcurrentGenerate (initServer 500) ⟨"test", encodePair (3, 5)⟩ tuple_sum
          .local [] [.remote] 0).final
        ⟨"test_alt", encodePair (3, 5)⟩ tuple_multiply .local [] [.remote] 0).values,
        v = tuple_multiply (encodePair (3, 5)))) :=
  ⟨by decide, rfl, rfl, rfl, rfl, by decide, by decide,
    namespaces_never_collide (initServer 500) "test" "test_alt" (encodePair (3, 5))
      tuple_sum tuple_multiply .local .remote 0 (by decide) rfl rfl rfl rfl
      (by decide) (by decide)⟩

/-- C10: for every caller whose handle resolves successfully, the resolved value
equals the generator applied directly to the key: serializing, storing (and, for
remote clients, sending) and deserializing is an identity round-trip — for the
first caller, for joiners, and, after a restart, for callers served from the
durable store alike. -/
theorem resolved_value_is_generator_output
    (st : ServerState) (slot : Slot) (gen : Bytes → Nat)
    (kFirst : ClientKind) (kindsJoin kindsAfter : List ClientKind) (now now2 : Nat)
    (h1 : storeLookup st.store slot = none)
    (h2 : taskLookup st.tasks slot = none)
    (hv : gen slot.keyRepr < 2 ^ 64) :
    decodeU64 (encodeU64 (gen slot.keyRepr)) = gen slot.keyRepr ∧
    (∀ v ∈ (runConcurrentGenerate st slot gen kFirst kindsJoin kindsAfter now).values,
      v = gen slot.keyRepr) ∧
    (runGenerateOnce
        (restartServer
          (runConcurrentGenerate st slot gen kFirst kindsJoin kindsAfter now).final)
        slot (fun b => some (gen b)) now2).1 = .ok (gen slot.keyRepr) ∧
    (runGenerateOnce
        (restartServer
          (runConcurrentGenerate st slot gen kFirst kindsJoin kindsAfter now).final)
        slot (fun b => some (gen b)) now2).2.1 = 0 := by
  have hdec : decodeU64 (encodeU64 (gen slot.keyRepr)) = gen slot.keyRepr :=
    decodeU64_encodeU64 _ hv
  have hrun := runConcurrentGenerate_fresh_eq st slot gen kFirst kindsJoin kindsAfter now h1 h2
  have hstore : storeLookup
      (restartServer
        (runConcurrentGenerate st slot gen kFirst kindsJoin kindsAfter now).final).store
      slot = some (encodeU64 (gen slot.keyRepr)) := by
    rw [hrun]
    exact storeLookup_cons_self slot _ _
  have hserved := runGenerateOnce_done
    (restartServer (runConcurrentGenerate st slot gen kFirst kindsJoin kindsAfter now).final)
    slot (fun b => some (gen b)) now2 (encodeU64 (gen slot.keyRepr)) hstore
  refine ⟨hdec, ?_, ?_, by rw [hserved]⟩
  · rw [hrun]
    simp [hdec]
  · rw [hserved]
    simp [hdec]

theorem resolved_value_is_generator_output_witness :
    storeLookup (initServer 500).store ⟨"test", encodePair (3, 5)⟩ = none ∧
    taskLookup (initServer 500).tasks ⟨"test", encodePair (3, 5)⟩ = none ∧
    tuple_sum (encodePair (3, 5)) < 2 ^ 64 ∧
    (decodeU64 (encodeU64 (tuple_sum (encodePair (3, 5)))) = tuple_sum (encodePair (3, 5)) ∧
      (∀ v ∈ (runConcurrentGenerate (initServer 500) ⟨"test", encodePair (3, 5)⟩ tuple_sum
        .remote [.local] [.remote] 0).values, v = tuple_sum (encodePair (3, 5))) ∧
      (runGenerateOnce
        (restartServer (runConcurrentGenerate (initServer 500) ⟨"test", encodePair (3, 5)⟩
          tuple_sum .remote [.local] [.remote] 0).final)
        ⟨"test", encodePair (3, 5)⟩ (fun b => some (tuple_sum b)) 9).1
        = .ok (tuple_sum (encodePair (3, 5))) ∧
      (runGenerateOnce
        (restartServer (runConcurrentGenerate (initServer 500) ⟨"test", encodePair (3, 5)⟩
          tuple_sum .remote [.local] [.remote] 0).final)
        ⟨"test", encodePair (3, 5)⟩ (fun b => some (tuple_sum b)) 9).2.1 = 0) :=
  ⟨rfl, rfl, by decide,
    resolved_value_is_generator_output (initServer 500) ⟨"test", encodePair (3, 5)⟩
      tuple_sum .remote [.local] [.remote] 0 9 rfl rfl (by decide)⟩
